import Mathlib

/-!
Verification of the alphavantage price source (`beanprice/sources/alphavantage.py`).

The Python module is shallowly embedded: pure helpers become Lean functions,
the effectful fetch pipeline becomes explicit state passing over a `World`
record that models the environment variable, the HTTP transport (a stream of
canned responses), the request log, the cumulative sleep time and the logging
output.  Python exceptions become an `Except PyError` result; the `while` loop
in `get_historical_price`, which the source leaves unbounded, is modelled with
explicit fuel so that its (non-)termination can be reasoned about.

Modelling conventions, stated once:
  * JSON payloads are modelled structurally (`JsonBody`): only the fields the
    module reads are represented; a field's absence is `none` / `false`.
    String-to-date parsing by `dateutil.parser.parse` is modelled by storing
    the already-parsed `DateTime` in the payload record.
  * `decimal.Decimal` values are modelled as a wrapper `Dec` around the raw
    string; no claim depends on decimal arithmetic.
  * Calendar dates are day numbers (`ℤ`): `strftime("%Y-%m-%d")` of a
    datetime is its `day` field, and `timedelta(days = n)` arithmetic moves
    `day` by `n`.  Python's `\w` character class is modelled over ASCII.
  * `dateutil.tz.gettz` consults the system tz database; it is modelled by a
    finite table of resolvable names, with every other name resolving to
    `none`, which is exactly dateutil's behaviour (it returns `None`, it does
    not raise).
-/

/-- The Python exceptions the module can raise, one constructor per class:
`ValueError` (raised by `_parse_ticker`), `AlphavantageApiError`
(a `ValueError` subclass raised by `_do_fetch`), and `KeyError`
(raised by `environ[...]` on a missing variable). -/
inductive PyError where
  | valueError (msg : String)
  | alphavantageApiError (msg : String)
  | keyError (key : String)
deriving DecidableEq, Repr

/-- Model of `decimal.Decimal` built from a string; the module never computes with
prices, so the raw string is kept. -/
structure Dec where
  s : String
deriving DecidableEq, Repr

/-- Constructor `Decimal(s)` as used in the source. -/
def Decimal (s : String) : Dec := ⟨s⟩

/-- A `datetime.datetime`: the calendar day shown by `strftime("%Y-%m-%d")`
as a day number, the time of day in seconds, and the `tzinfo` as an optional
UTC offset in seconds (`none` models a naive datetime). -/
structure DateTime where
  day : ℤ
  tod : ℤ
  tz : Option ℤ
deriving DecidableEq, Repr

/-- Subtraction `dt - timedelta(days = n)`: wall-clock arithmetic, the date moves, the
time of day and the zone stay. -/
def DateTime.subDays (dt : DateTime) (n : ℤ) : DateTime :=
  { dt with day := dt.day - n }

/-- The UTC instant of an aware datetime, in seconds; naive datetimes are
read at offset 0 (Python would refuse to compare naive with aware, a case no
claim exercises). -/
def DateTime.utcSeconds (dt : DateTime) : ℤ :=
  dt.day * 86400 + dt.tod - dt.tz.getD 0

/-- Comparison of datetimes (`<`), by UTC instant, as Python compares aware
datetimes. -/
def DateTime.lt (a b : DateTime) : Bool :=
  a.utcSeconds < b.utcSeconds

/-- Model of `dateutil.tz.tzutc()`, as an offset. -/
def tzutc : Option ℤ := some 0

/-- Model of `dateutil.tz.gettz`: resolves a zone name against the tz database.  The
database is modelled by a finite table; an unknown name yields `none` (the
real function returns `None` rather than raising). -/
def gettz (name : String) : Option ℤ :=
  if name = "UTC" then some 0
  else if name = "US/Eastern" then some (-18000)
  else if name = "Europe/Zurich" then some 3600
  else none

/-- Python `\w` (ASCII): letters, digits, underscore. -/
def isWordChar (c : Char) : Bool := c.isAlphanum || c = '_'

/-- Splitting a character list at every colon; mirrors how the anchored
regular expression `^(price|fx):[^:]+:\w+$` decomposes its subject, since
neither `[^:]` nor `\w` can match `:`. -/
def splitOnColon : List Char → List (List Char)
  | [] => [[]]
  | c :: cs =>
    if c = ':' then [] :: splitOnColon cs
    else
      match splitOnColon cs with
      | [] => [[c]]
      | r :: rs => (c :: r) :: rs

/-- The message of the `ValueError` raised on a malformed ticker. -/
def invalidTickerMsg : String :=
  "Invalid ticker. Use \x22price:SYMBOL:BASE\x22 or \x22fx:CCY:BASE\x22 format."

/-- Function `_parse_ticker`: matches the ticker against
`^(?P<kind>price|fx):(?P<symbol>[^:]+):(?P<base>\w+)$` and returns the three
groups, raising `ValueError` when the match fails. -/
def _parse_ticker (ticker : String) : Except PyError (String × String × String) :=
  match splitOnColon ticker.toList with
  | [kl, syml, bl] =>
    if (kl = "price".toList ∨ kl = "fx".toList) ∧ syml ≠ [] ∧ bl ≠ [] ∧ bl.all isWordChar then
      .ok (String.mk kl, String.mk syml, String.mk bl)
    else .error (.valueError invalidTickerMsg)
  | _ => .error (.valueError invalidTickerMsg)

/-- One entry of the `"Time Series (Daily)"` map; only `"4. close"` is read. -/
structure DayData where
  close : String
deriving DecidableEq, Repr

/-- The `"Global Quote"` object: `"05. price"` and
`"07. latest trading day"` (the latter already parsed). -/
structure GlobalQuote where
  price : String
  latestTradingDay : DateTime
deriving DecidableEq, Repr

/-- The `"Realtime Currency Exchange Rate"` object: `"5. Exchange Rate"`,
`"6. Last Refreshed"` (already parsed, naive) and `"7. Time Zone"`. -/
structure RateData where
  exchangeRate : String
  lastRefreshed : DateTime
  timeZone : String
deriving DecidableEq, Repr

/-- A decoded JSON response body, restricted to the keys the module reads.
`note` is the presence of the `"Note"` rate-limit marker; an absent key is
`none` (or `false`). The `"Time Series (Daily)"` map is an association list
from day numbers to per-day data. -/
structure JsonBody where
  note : Bool
  errorMessage : Option String
  information : Option String
  globalQuote : Option GlobalQuote
  realtimeRate : Option RateData
  timeSeriesDaily : Option (List (ℤ × DayData))
deriving DecidableEq, Repr

/-- The HTTP query parameters of a request; `apikey` is filled in by
`_do_fetch`. -/
structure Params where
  function : String
  symbol : Option String
  outputSize : Option String
  from_currency : Option String
  to_currency : Option String
  apikey : Option String
deriving DecidableEq, Repr

/-- Assignment of the api key into the params dict. -/
def Params.setApikey (p : Params) (key : String) : Params :=
  { p with apikey := some key }

/-- A `requests` response: status code, raw body text, decoded JSON. -/
structure Response where
  status_code : ℕ
  text : String
  json : JsonBody

/-- A record of the `logging` calls the module makes. -/
inductive LogMsg where
  | info (msg : String)
  | error (msg : String) (data : JsonBody)
deriving DecidableEq, Repr

/-- The ambient state the module interacts with: the
`ALPHAVANTAGE_API_KEY` environment variable, the network (the response to
the n-th HTTP request issued so far), the number of requests issued, the
log of issued requests, the seconds slept, and the logging output. -/
structure World where
  apiKeyEnv : Option String
  net : ℕ → Response
  requestCount : ℕ
  requestLog : List Params
  sleepSeconds : ℕ
  log : List LogMsg

/-- Model of `requests.get(url, params)`: consumes the next canned response and
records the request. -/
def httpGet (p : Params) (w : World) : Response × World :=
  (w.net w.requestCount,
   { w with requestCount := w.requestCount + 1, requestLog := w.requestLog ++ [p] })

/-- Constant `requests.codes.ok`. -/
def codes_ok : ℕ := 200

/-- Function `_do_fetch`: injects the API key from the environment (raising
`KeyError` when the variable is absent), issues the GET, retries the same
request once after a 60-second sleep when the body carries the `"Note"`
rate-limit marker, then checks the HTTP status and the `"Error Message"`
field, in that order. -/
def _do_fetch (p : Params) (w : World) : Except PyError JsonBody × World :=
  match w.apiKeyEnv with
  | none => (.error (.keyError "ALPHAVANTAGE_API_KEY"), w)
  | some key =>
    let p := p.setApikey key
    let rw := httpGet p w
    let resp := rw.1
    let w := rw.2
    let data := resp.json
    let rdw :=
      if data.note then
        let w := { w with sleepSeconds := w.sleepSeconds + 60 }
        let rw2 := httpGet p w
        (rw2.1, rw2.1.json, rw2.2)
      else (resp, data, w)
    let resp := rdw.1
    let data := rdw.2.1
    let w := rdw.2.2
    if resp.status_code ≠ codes_ok then
      (.error (.alphavantageApiError
        ("Invalid response (" ++ toString resp.status_code ++ "): " ++ resp.text)), w)
    else if h : data.errorMessage.isSome then
      (.error (.alphavantageApiError
        ("Invalid response: " ++ data.errorMessage.get h)), w)
    else
      (.ok data, w)

/-- Record `source.SourcePrice(price, time, quote_currency)` from the host
`beanprice.source` module (a named tuple). -/
structure SourcePrice where
  price : Dec
  time : DateTime
  quote_currency : String
deriving DecidableEq, Repr

/-- Python substring containment `needle in haystack`, over character
lists. -/
def substrIn (needle : List Char) : List Char → Bool
  | [] => needle.isEmpty
  | c :: cs => needle.isPrefixOf (c :: cs) || substrIn needle cs

/-- Test of the premium-tier gate in `get_historical_price`:
`"Information" in data and "premium endpoint" in data["Information"].lower()`. -/
def premium_gate (data : JsonBody) : Bool :=
  match data.information with
  | some s => substrIn "premium endpoint".toList (s.toList.map Char.toLower)
  | none => false

/-- Membership test `time.strftime("%Y-%m-%d") in price_data` on the daily
series map. -/
def seriesHasDay (price_data : List (ℤ × DayData)) (d : ℤ) : Bool :=
  (price_data.lookup d).isSome

/-- The backward day-by-day fallback loop of `get_historical_price`
(`while time.strftime(...) not in price_data: time -= timedelta(days=1)`),
with explicit fuel standing in for the missing lookback bound: `none` means
the loop has not terminated within `fuel` iterations. -/
def searchBack (mem : ℤ → Bool) (d : ℤ) : ℕ → Option ℤ
  | 0 => none
  | fuel + 1 => if mem d then some d else searchBack mem (d - 1) fuel

/-- Outcome of `get_historical_price`: a returned value, a raised
exception, or divergence of the unbounded fallback loop (fuel exhausted). -/
inductive HistResult where
  | ok (r : Option SourcePrice)
  | err (e : PyError)
  | diverge
deriving DecidableEq, Repr

/-- Method `Source.get_latest_price`. -/
def get_latest_price (ticker : String) (w : World) : Except PyError SourcePrice × World :=
  match _parse_ticker ticker with
  | .error e => (.error e, w)
  | .ok (kind, symbol, base) =>
    if kind = "price" then
      let params : Params := ⟨"GLOBAL_QUOTE", some symbol, none, none, none, none⟩
      match _do_fetch params w with
      | (.error e, w') => (.error e, w')
      | (.ok data, w') =>
        match data.globalQuote with
        | none => (.error (.keyError "Global Quote"), w')
        | some price_data =>
          let price := Decimal price_data.price
          let date := { price_data.latestTradingDay with tz := tzutc }
          (.ok ⟨price, date, base⟩, w')
    else
      let params : Params := ⟨"CURRENCY_EXCHANGE_RATE", none, none, some symbol, some base, none⟩
      match _do_fetch params w with
      | (.error e, w') => (.error e, w')
      | (.ok data, w') =>
        match data.realtimeRate with
        | none => (.error (.keyError "Realtime Currency Exchange Rate"), w')
        | some price_data =>
          let price := Decimal price_data.exchangeRate
          let date := { price_data.lastRefreshed with tz := gettz price_data.timeZone }
          (.ok ⟨price, date, base⟩, w')

/-- Method `Source.get_historical_price`.  `now` models
`datetime.now(timezone.utc)`; `fuel` bounds the fallback loop, whose
exhaustion is reported as `HistResult.diverge` (the Python loop would still
be running).  In the found-day branch the series lookup cannot miss
(`searchBack` only returns members), so the impossible miss is defaulted. -/
def get_historical_price (ticker : String) (time : DateTime) (now : DateTime)
    (fuel : ℕ) (w : World) : HistResult × World :=
  match _parse_ticker ticker with
  | .error e => (.err e, w)
  | .ok (kind, symbol, base) =>
    let param_output_size := if DateTime.lt time (now.subDays 130) then "full" else "compact"
    if kind = "price" then
      let params : Params := ⟨"TIME_SERIES_DAILY", some symbol, some param_output_size, none, none, none⟩
      match _do_fetch params w with
      | (.error e, w') => (.err e, w')
      | (.ok data, w') =>
        if premium_gate data then
          (.ok none, { w' with log := w'.log ++ [.info "Premium endpoint API key required."] })
        else
          match data.timeSeriesDaily with
          | some price_data =>
            match searchBack (seriesHasDay price_data) time.day fuel with
            | none => (.diverge, w')
            | some d =>
              let time := { time with day := d }
              let day_data := (price_data.lookup d).getD ⟨""⟩
              let price := Decimal day_data.close
              (.ok (some ⟨price, time, base⟩), w')
          | none =>
            (.ok none, { w' with log := w'.log ++ [.error "Price data not found when expected: %s" data] })
    else
      (.ok none, { w with log := w.log ++ [.info "Currency exchange not implemented yet."] })

/-- Joining character lists back with colons; inverse of `splitOnColon`. -/
def joinColon : List (List Char) → List Char
  | [] => []
  | [p] => p
  | p :: ps => p ++ ':' :: joinColon ps

/-- Spec-side reading of the ticker grammar `^(price|fx):[^:]+:\w+$`:
the string decomposes as `kind:symbol:base` with `kind` one of the two
literal tags, `symbol` a nonempty run of non-colon characters, and `base` a
nonempty run of word characters.  Stated independently of `_parse_ticker`
so that the parser can be compared against it. -/
def tickerGrammar (kind symbol base s : String) : Prop :=
  s = kind ++ ":" ++ symbol ++ ":" ++ base ∧
  (kind = "price" ∨ kind = "fx") ∧
  symbol ≠ "" ∧ (∀ c ∈ symbol.toList, c ≠ ':') ∧
  base ≠ "" ∧ (∀ c ∈ base.toList, isWordChar c)

/-- The response whose status and body `_do_fetch` examines after its retry
step: the second response when the first body carried the `"Note"` marker,
the first response otherwise. -/
def effectiveResponse (w : World) : Response :=
  if (w.net w.requestCount).json.note then w.net (w.requestCount + 1)
  else w.net w.requestCount

/-- The world state after `_do_fetch` ran its request/retry phase with key
`key`: one request logged normally, two identical requests and 60 slept
seconds when the first body carried the `"Note"` marker. -/
def afterFetchWorld (p : Params) (w : World) (key : String) : World :=
  if (w.net w.requestCount).json.note then
    { w with requestCount := w.requestCount + 2,
             requestLog := w.requestLog ++ [p.setApikey key, p.setApikey key],
             sleepSeconds := w.sleepSeconds + 60 }
  else
    { w with requestCount := w.requestCount + 1,
             requestLog := w.requestLog ++ [p.setApikey key] }

/-- An empty JSON body (no recognised keys). -/
def emptyBody : JsonBody := ⟨false, none, none, none, none, none⟩

/-- The daily series of the repository's own test fixture, `response_tsda`
in `alphavantage_test.py`: four trading days (2025-04-03/04/07/08 as day
numbers 3, 4, 7, 8) with their close prices. -/
def tsda : List (ℤ × DayData) :=
  [(8, ⟨"221.03"⟩), (7, ⟨"225.78"⟩), (4, ⟨"227.48"⟩), (3, ⟨"243.49"⟩)]

/-- The `GLOBAL_QUOTE` params for symbol IBM, used by concrete runs. -/
def pGQ : Params := ⟨"GLOBAL_QUOTE", some "IBM", none, none, none, none⟩

/-- A world serving the daily-series fixture with a configured key. -/
def wSeries : World :=
  ⟨some "foo", fun _ => ⟨200, "", { emptyBody with timeSeriesDaily := some tsda }⟩, 0, [], 0, []⟩

/-- A world whose response has HTTP status 404 and a body carrying an
explicit `"Error Message"` field. -/
def wErr404 : World :=
  ⟨some "k", fun _ => ⟨404, "irrelevant", { emptyBody with errorMessage := some "boom" }⟩,
   0, [], 0, []⟩

/-- A world whose response is a success status with an `"Error Message"`
body. -/
def wErr200 : World :=
  ⟨some "k", fun _ => ⟨200, "", { emptyBody with errorMessage := some "bad symbol" }⟩,
   0, [], 0, []⟩

/-- A world whose exchange-rate response names a time zone absent from the
tz database. -/
def wFxBad : World :=
  ⟨some "k",
   fun _ => ⟨200, "",
     { emptyBody with realtimeRate := some ⟨"108.94000000", ⟨100, 73945, none⟩, "Mars/Olympus"⟩ }⟩,
   0, [], 0, []⟩

/-- A world whose exchange-rate response names the literal `"UTC"` zone,
as in the repository's `test_valid_response_fx` fixture. -/
def wFxUTC : World :=
  ⟨some "k",
   fun _ => ⟨200, "",
     { emptyBody with realtimeRate := some ⟨"108.94000000", ⟨100, 73945, none⟩, "UTC"⟩ }⟩,
   0, [], 0, []⟩

/-- A world that answers every request with a rate-limited (`"Note"`) body:
the first with a non-success status, the retry with a success status whose
body still carries the marker. -/
def wNote : World :=
  ⟨some "k",
   fun n =>
     if n = 0 then ⟨404, "limited", { emptyBody with note := true }⟩
     else ⟨200, "", { emptyBody with note := true, information := some "patience" }⟩,
   0, [], 0, []⟩

/-- A world whose response signals that the endpoint is premium-gated. -/
def wPremium : World :=
  ⟨some "k",
   fun _ => ⟨200, "",
     { emptyBody with information := some "This is a Premium Endpoint, please subscribe" }⟩,
   0, [], 0, []⟩

/-- A world whose response body lacks the time-series key (and is not
premium-gated). -/
def wNoSeries : World :=
  ⟨some "k", fun _ => ⟨200, "", emptyBody⟩, 0, [], 0, []⟩

/-- A world whose response carries an empty daily-series map. -/
def wEmptySeries : World :=
  ⟨some "k", fun _ => ⟨200, "", { emptyBody with timeSeriesDaily := some [] }⟩, 0, [], 0, []⟩

/-- A world with no `ALPHAVANTAGE_API_KEY` in the environment. -/
def wNoKey : World :=
  ⟨none, fun _ => ⟨200, "", emptyBody⟩, 0, [], 0, []⟩

theorem splitOnColon_ne_nil (l : List Char) : splitOnColon l ≠ [] := by
  cases l with
  | nil => simp [splitOnColon]
  | cons c cs =>
    simp only [splitOnColon]
    split
    · simp
    · split <;> simp

theorem splitOnColon_of_no_colon (a : List Char) (h : ':' ∉ a) : splitOnColon a = [a] := by
  induction a with
  | nil => rfl
  | cons c cs ih =>
    simp only [List.mem_cons, not_or] at h
    have hc : ¬ c = ':' := fun hh => h.1 hh.symm
    simp [splitOnColon, hc, ih h.2]

theorem splitOnColon_append_colon (a b : List Char) (h : ':' ∉ a) :
    splitOnColon (a ++ ':' :: b) = a :: splitOnColon b := by
  induction a with
  | nil => simp [splitOnColon]
  | cons c cs ih =>
    simp only [List.mem_cons, not_or] at h
    have hc : ¬ c = ':' := fun hh => h.1 hh.symm
    have ih2 := ih h.2
    rcases hsplit : splitOnColon b with _ | ⟨r, rs⟩
    · exact absurd hsplit (splitOnColon_ne_nil b)
    · rw [hsplit] at ih2
      simp [splitOnColon, hc, ih2, hsplit]

theorem splitOnColon_no_colon (l : List Char) : ∀ p ∈ splitOnColon l, ':' ∉ p := by
  induction l with
  | nil =>
    intro p hp
    simp [splitOnColon] at hp
    subst hp
    simp
  | cons c cs ih =>
    intro p hp
    by_cases hc : c = ':'
    · subst hc
      simp [splitOnColon] at hp
      rcases hp with rfl | hp
      · simp
      · exact ih p hp
    · simp only [splitOnColon, if_neg hc] at hp
      rcases hsplit : splitOnColon cs with _ | ⟨r, rs⟩
      · exact absurd hsplit (splitOnColon_ne_nil cs)
      · rw [hsplit] at hp
        simp only [List.mem_cons] at hp
        rcases hp with rfl | hp
        · intro hmem
          simp only [List.mem_cons] at hmem
          rcases hmem with hcc | hmem
          · exact hc hcc.symm
          · exact ih r (by rw [hsplit]; simp) hmem
        · exact ih p (by rw [hsplit]; simp [hp])

theorem joinColon_splitOnColon (l : List Char) : joinColon (splitOnColon l) = l := by
  induction l with
  | nil => rfl
  | cons c cs ih =>
    by_cases hc : c = ':'
    · subst hc
      simp only [splitOnColon, if_pos rfl]
      rcases hsplit : splitOnColon cs with _ | ⟨r, rs⟩
      · exact absurd hsplit (splitOnColon_ne_nil cs)
      · rw [hsplit] at ih
        simp only [joinColon, List.nil_append]
        rw [ih]
    · simp only [splitOnColon, if_neg hc]
      rcases hsplit : splitOnColon cs with _ | ⟨r, rs⟩
      · exact absurd hsplit (splitOnColon_ne_nil cs)
      · rw [hsplit] at ih
        cases rs with
        | nil =>
          simp only [joinColon] at ih ⊢
          rw [ih]
        | cons r2 rs2 =>
          simp only [joinColon, List.cons_append] at ih ⊢
          rw [ih]

theorem stringToList_append (a b : String) : (a ++ b).toList = a.toList ++ b.toList := by
  cases a; cases b; rfl

theorem stringMk_toList (s : String) : String.mk s.toList = s := by
  cases s; rfl

theorem stringToList_eq_nil (s : String) : s.toList = [] ↔ s = "" := by
  cases s with
  | mk data =>
    constructor
    · intro h
      simp [String.toList] at h
      subst h
      rfl
    · intro h
      have h1 : String.mk data = String.mk [] := h
      have h2 := congrArg String.data h1
      simpa [String.toList] using h2

theorem stringToList_inj (a b : String) (h : a.toList = b.toList) : a = b := by
  cases a; cases b; exact congrArg String.mk h

theorem parse_ticker_build (kind symbol base : String)
    (hk : kind = "price" ∨ kind = "fx")
    (hsym : symbol ≠ "") (hsymc : ∀ c ∈ symbol.toList, c ≠ ':')
    (hbase : base ≠ "") (hbw : ∀ c ∈ base.toList, isWordChar c) :
    _parse_ticker (kind ++ ":" ++ symbol ++ ":" ++ base) = .ok (kind, symbol, base) := by
  have hkc : ':' ∉ kind.toList := by
    rcases hk with rfl | rfl <;> decide
  have hsc : ':' ∉ symbol.toList := fun hmem => hsymc ':' hmem rfl
  have hbc : ':' ∉ base.toList := by
    intro hmem
    have := hbw ':' hmem
    simp [isWordChar] at this
  have htl : (kind ++ ":" ++ symbol ++ ":" ++ base).toList
      = kind.toList ++ ':' :: (symbol.toList ++ ':' :: base.toList) := by
    simp [stringToList_append]
  have hsplit : splitOnColon (kind ++ ":" ++ symbol ++ ":" ++ base).toList
      = [kind.toList, symbol.toList, base.toList] := by
    rw [htl, splitOnColon_append_colon _ _ hkc, splitOnColon_append_colon _ _ hsc,
      splitOnColon_of_no_colon _ hbc]
  have hcond : (kind.toList = "price".toList ∨ kind.toList = "fx".toList)
      ∧ symbol.toList ≠ [] ∧ base.toList ≠ [] ∧ base.toList.all isWordChar := by
    refine ⟨?_, ?_, ?_, ?_⟩
    · rcases hk with rfl | rfl
      · left; rfl
      · right; rfl
    · intro hnil
      exact hsym ((stringToList_eq_nil symbol).mp hnil)
    · intro hnil
      exact hbase ((stringToList_eq_nil base).mp hnil)
    · exact List.all_eq_true.mpr hbw
  simp only [_parse_ticker, hsplit]
  rw [if_pos hcond, stringMk_toList, stringMk_toList, stringMk_toList]

theorem parse_ticker_error_shape (s : String) (e : PyError)
    (h : _parse_ticker s = .error e) : e = .valueError invalidTickerMsg := by
  unfold _parse_ticker at h
  rcases hs : splitOnColon s.toList with _ | ⟨a, _ | ⟨b, _ | ⟨c, _ | ⟨d, tl⟩⟩⟩⟩ <;>
    rw [hs] at h
  · exact (Except.error.inj h).symm
  · exact (Except.error.inj h).symm
  · exact (Except.error.inj h).symm
  · have h2 : (if (a = "price".toList ∨ a = "fx".toList) ∧ b ≠ [] ∧ c ≠ [] ∧ c.all isWordChar then
          (Except.ok (String.mk a, String.mk b, String.mk c) :
            Except PyError (String × String × String))
        else Except.error (PyError.valueError invalidTickerMsg)) = Except.error e := h
    split_ifs at h2 with hcond
    exact (Except.error.inj h2).symm
  · exact (Except.error.inj h).symm

theorem parse_ticker_complete (s kind symbol base : String)
    (h : _parse_ticker s = .ok (kind, symbol, base)) :
    tickerGrammar kind symbol base s := by
  unfold _parse_ticker at h
  rcases hs : splitOnColon s.toList with _ | ⟨kl, _ | ⟨syml, _ | ⟨bl, _ | ⟨d, tl⟩⟩⟩⟩ <;>
    rw [hs] at h
  · simp at h
  · simp at h
  · simp at h
  case cons.cons.cons.nil =>
    have h2 : (if (kl = "price".toList ∨ kl = "fx".toList) ∧ syml ≠ [] ∧ bl ≠ [] ∧
            bl.all isWordChar then
          (Except.ok (String.mk kl, String.mk syml, String.mk bl) :
            Except PyError (String × String × String))
        else Except.error (PyError.valueError invalidTickerMsg)) = Except.ok (kind, symbol, base) := h
    clear h
    split_ifs at h2 with hcond
    · obtain ⟨hcond1, hcond2, hcond3, hcond4⟩ := hcond
      simp only [Except.ok.injEq, Prod.mk.injEq] at h2
      obtain ⟨hkind, hsym, hbase⟩ := h2
      subst hkind
      subst hsym
      subst hbase
      have hnoc := splitOnColon_no_colon s.toList
      rw [hs] at hnoc
      have hjoin := joinColon_splitOnColon s.toList
      rw [hs] at hjoin
      refine ⟨?_, ?_, ?_, ?_, ?_, ?_⟩
      · apply stringToList_inj
        rw [← hjoin]
        simp only [stringToList_append]
        simp [joinColon, String.toList]
      · rcases hcond1 with rfl | rfl
        · left; rfl
        · right; rfl
      · intro hnil
        exact hcond2 (congrArg String.data hnil)
      · intro c hc hceq
        subst hceq
        exact hnoc syml (by simp) hc
      · intro hnil
        exact hcond3 (congrArg String.data hnil)
      · intro c hc
        exact List.all_eq_true.mp hcond4 c hc
  · simp at h

theorem searchBack_eq_some (mem : ℤ → Bool) (d j : ℤ) (fuel : ℕ)
    (h : searchBack mem d fuel = some j) :
    mem j = true ∧ j ≤ d ∧ ∀ k, j < k → k ≤ d → mem k = false := by
  induction fuel generalizing d with
  | zero => simp [searchBack] at h
  | succ n ih =>
    rw [searchBack] at h
    by_cases hm : mem d
    · rw [if_pos hm] at h
      obtain rfl := Option.some.inj h
      exact ⟨hm, le_refl _, fun k hk1 hk2 => absurd (lt_of_lt_of_le hk1 hk2) (lt_irrefl _)⟩
    · rw [if_neg hm] at h
      obtain ⟨h1, h2, h3⟩ := ih (d - 1) h
      refine ⟨h1, by omega, ?_⟩
      intro k hk1 hk2
      rcases eq_or_lt_of_le hk2 with rfl | hlt
      · simpa using hm
      · exact h3 k hk1 (by omega)

theorem searchBack_isSome (mem : ℤ → Bool) (k : ℤ) (hmem : mem k = true) :
    ∀ (n : ℕ) (d : ℤ), k ≤ d → (d - k).toNat ≤ n → (searchBack mem d (n + 1)).isSome := by
  intro n
  induction n with
  | zero =>
    intro d hkd hn
    have hdk : d = k := by omega
    subst hdk
    simp [searchBack, hmem]
  | succ m ih =>
    intro d hkd hn
    by_cases hm : mem d
    · simp [searchBack, hm]
    · have hne : d ≠ k := by
        intro hh
        subst hh
        exact hm hmem
      have hkd2 : k ≤ d - 1 := by omega
      have hn2 : (d - 1 - k).toNat ≤ m := by omega
      have hrec := ih (d - 1) hkd2 hn2
      simpa [searchBack, hm] using hrec

theorem searchBack_eq_none (mem : ℤ → Bool) (fuel : ℕ) :
    ∀ d : ℤ, (∀ k, k ≤ d → mem k = false) → searchBack mem d fuel = none := by
  induction fuel with
  | zero => intro d h; rfl
  | succ n ih =>
    intro d h
    have hd : mem d = false := h d le_rfl
    simp only [searchBack, hd]
    simp only [Bool.false_eq_true, if_false]
    exact ih (d - 1) (fun k hk => h k (by omega))

theorem do_fetch_spec (p : Params) (w : World) (key : String)
    (hkey : w.apiKeyEnv = some key) :
    _do_fetch p w =
      ((if (effectiveResponse w).status_code ≠ codes_ok then
          .error (.alphavantageApiError
            ("Invalid response (" ++ toString (effectiveResponse w).status_code ++ "): "
              ++ (effectiveResponse w).text))
        else if h : (effectiveResponse w).json.errorMessage.isSome then
          .error (.alphavantageApiError
            ("Invalid response: " ++ (effectiveResponse w).json.errorMessage.get h))
        else .ok (effectiveResponse w).json),
       afterFetchWorld p w key) := by
  unfold _do_fetch effectiveResponse afterFetchWorld httpGet
  rw [hkey]
  by_cases hnote : (w.net w.requestCount).json.note
  · simp only [hnote, if_true, if_pos]
    split_ifs <;> simp [List.append_assoc]
  · simp only [hnote, if_false, Bool.false_eq_true]
    split_ifs <;> simp [List.append_assoc]

theorem do_fetch_ok (p : Params) (w : World) (key : String)
    (hkey : w.apiKeyEnv = some key)
    (hstatus : (effectiveResponse w).status_code = codes_ok)
    (herr : (effectiveResponse w).json.errorMessage = none) :
    _do_fetch p w = (.ok (effectiveResponse w).json, afterFetchWorld p w key) := by
  rw [do_fetch_spec p w key hkey]
  simp [hstatus, herr]

theorem do_fetch_no_key (p : Params) (w : World) (hkey : w.apiKeyEnv = none) :
    _do_fetch p w = (.error (.keyError "ALPHAVANTAGE_API_KEY"), w) := by
  unfold _do_fetch
  rw [hkey]

theorem colon_toList : (":" : String).toList = [':'] := rfl

theorem afterFetchWorld_requestLog_mem (p : Params) (w : World) (key : String) (q : Params)
    (h : q ∈ (afterFetchWorld p w key).requestLog) :
    q ∈ w.requestLog ∨ q = p.setApikey key := by
  unfold afterFetchWorld at h
  split_ifs at h <;> simp only [List.mem_append, List.mem_cons,
    List.mem_singleton, List.not_mem_nil, or_false] at h <;> tauto

/-- C5: every string matching the grammar `^(price|fx):[^:]+:\w+$` parses to
exactly the (kind, symbol, base) triple used to build it; every non-matching
string raises the invalid-ticker-format `ValueError`, and that error is
distinguishable from the `AlphavantageApiError` used for transport and
application failures. -/
theorem C5_ticker_roundtrip :
    (∀ kind symbol base s, tickerGrammar kind symbol base s →
        _parse_ticker s = .ok (kind, symbol, base)) ∧
    (∀ s, (∀ kind symbol base, ¬ tickerGrammar kind symbol base s) →
        _parse_ticker s = .error (.valueError invalidTickerMsg)) ∧
    (∀ m m2, PyError.valueError m ≠ PyError.alphavantageApiError m2) := by
  refine ⟨?_, ?_, ?_⟩
  · intro kind symbol base s hg
    obtain ⟨hs, hk, hsym, hsymc, hbase, hbw⟩ := hg
    subst hs
    exact parse_ticker_build kind symbol base hk hsym hsymc hbase hbw
  · intro s hng
    rcases hres : _parse_ticker s with e | t
    · rw [parse_ticker_error_shape s e hres]
    · obtain ⟨kind, symbol, base⟩ := t
      exact absurd (parse_ticker_complete s kind symbol base hres) (hng kind symbol base)
  · intro m m2 hcontra
    exact PyError.noConfusion hcontra

/-- Witness for C5 at the concrete tickers of the repository's tests. -/
theorem C5_ticker_roundtrip_witness :
    _parse_ticker "price:IBM:USD" = .ok ("price", "IBM", "USD") ∧
    _parse_ticker "INVALID" = .error (.valueError invalidTickerMsg) := by
  constructor
  · exact C5_ticker_roundtrip.1 "price" "IBM" "USD" "price:IBM:USD"
      ⟨rfl, Or.inl rfl, by decide, by decide, by decide, by decide⟩
  · refine C5_ticker_roundtrip.2.1 "INVALID" ?_
    rintro k sym b ⟨hs, hk, h1, h2, h3, h4⟩
    have hts := congrArg String.toList hs
    simp only [stringToList_append, colon_toList] at hts
    have hmem : ':' ∈ ("INVALID" : String).toList := by
      rw [hts]
      simp
    exact absurd hmem (by decide)

/-- C10: with `ALPHAVANTAGE_API_KEY` absent from the environment, every
fetch raises the `KeyError` configuration error with the world unchanged (no
HTTP request was issued); every request ever logged carries the key from the
environment (no unauthenticated request); the configuration error is
distinguishable from API errors; and with the variable absent neither public
entry point issues any HTTP request. -/
theorem C10_missing_key :
    (∀ p w, w.apiKeyEnv = none →
        _do_fetch p w = (.error (.keyError "ALPHAVANTAGE_API_KEY"), w)) ∧
    (∀ p w q, q ∈ (_do_fetch p w).2.requestLog →
        q ∈ w.requestLog ∨ q.apikey = w.apiKeyEnv) ∧
    (∀ k m, PyError.keyError k ≠ PyError.alphavantageApiError m) ∧
    (∀ ticker w, w.apiKeyEnv = none →
        (get_latest_price ticker w).2.requestCount = w.requestCount) ∧
    (∀ ticker time now fuel w, w.apiKeyEnv = none →
        (get_historical_price ticker time now fuel w).2.requestCount = w.requestCount) := by
  refine ⟨?_, ?_, ?_, ?_, ?_⟩
  · intro p w hkey
    exact do_fetch_no_key p w hkey
  · intro p w q hq
    rcases h2 : w.apiKeyEnv with _ | key2
    · rw [do_fetch_no_key p w h2] at hq
      exact Or.inl hq
    · rw [do_fetch_spec p w key2 h2] at hq
      have hq2 : q ∈ (afterFetchWorld p w key2).requestLog := hq
      rcases afterFetchWorld_requestLog_mem p w key2 q hq2 with h | h
      · exact Or.inl h
      · subst h
        exact Or.inr rfl
  · intro k m hcontra
    exact PyError.noConfusion hcontra
  · intro ticker w hkey
    unfold get_latest_price
    rcases hp : _parse_ticker ticker with e | ⟨k, sym, b⟩
    · rfl
    · by_cases hk : k = "price" <;>
        simp only [hk, if_true, if_false, if_pos, if_neg, not_false_iff] <;>
        rw [do_fetch_no_key _ _ hkey]
  · intro ticker time now fuel w hkey
    unfold get_historical_price
    rcases hp : _parse_ticker ticker with e | ⟨k, sym, b⟩
    · rfl
    · by_cases hk : k = "price" <;>
        simp only [hk, if_true, if_false, if_pos, if_neg, not_false_iff] <;>
        try rw [do_fetch_no_key _ _ hkey]

/-- Witness for C10 at a concrete key-less world. -/
theorem C10_missing_key_witness :
    _do_fetch pGQ wNoKey = (.error (.keyError "ALPHAVANTAGE_API_KEY"), wNoKey) :=
  C10_missing_key.1 pGQ wNoKey rfl

/-- C4: when the first decoded body carries the `"Note"` rate-limit marker,
`_do_fetch` sleeps a fixed 60 seconds and re-issues the exact same request
exactly once more (so at most two HTTP requests per fetch, and exactly two
here); the marker is honoured before the HTTP-status check (no assumption on
the first response's status is needed); and whatever the retried body
contains — the marker again included — it is returned as-is provided the
retry's status is a success and it has no error-message field. -/
theorem C4_rate_limit_retry (p : Params) (w : World) (key : String)
    (hkey : w.apiKeyEnv = some key)
    (hnote : (w.net w.requestCount).json.note = true) :
    (∀ w2 : World, (_do_fetch p w2).2.requestCount ≤ w2.requestCount + 2) ∧
    (_do_fetch p w).2.requestCount = w.requestCount + 2 ∧
    (_do_fetch p w).2.requestLog = w.requestLog ++ [p.setApikey key, p.setApikey key] ∧
    (_do_fetch p w).2.sleepSeconds = w.sleepSeconds + 60 ∧
    ((w.net (w.requestCount + 1)).status_code = codes_ok →
      (w.net (w.requestCount + 1)).json.errorMessage = none →
      (_do_fetch p w).1 = .ok ((w.net (w.requestCount + 1)).json)) := by
  have hworld : (_do_fetch p w).2 = afterFetchWorld p w key := by
    rw [do_fetch_spec p w key hkey]
  have heff : effectiveResponse w = w.net (w.requestCount + 1) := by
    unfold effectiveResponse
    rw [if_pos hnote]
  refine ⟨?_, ?_, ?_, ?_, ?_⟩
  · intro w2
    rcases h2 : w2.apiKeyEnv with _ | key2
    · rw [do_fetch_no_key p w2 h2]
      simp
    · have : (_do_fetch p w2).2 = afterFetchWorld p w2 key2 := by
        rw [do_fetch_spec p w2 key2 h2]
      rw [this]
      unfold afterFetchWorld
      split_ifs <;> simp
  · rw [hworld]
    unfold afterFetchWorld
    rw [if_pos hnote]
  · rw [hworld]
    unfold afterFetchWorld
    rw [if_pos hnote]
  · rw [hworld]
    unfold afterFetchWorld
    rw [if_pos hnote]
  · intro hstatus herr
    rw [do_fetch_ok p w key hkey (by rw [heff]; exact hstatus) (by rw [heff]; exact herr)]
    rw [heff]

/-- Witness for C4 at a concrete world that is rate-limited on both
requests, with a non-success status on the first. -/
theorem C4_rate_limit_retry_witness :
    (wNote.net 0).json.note = true ∧ (wNote.net 0).status_code = 404 ∧
    (wNote.net 1).json.note = true ∧
    (_do_fetch pGQ wNote).2.requestCount = 2 ∧
    (_do_fetch pGQ wNote).2.sleepSeconds = 60 ∧
    (_do_fetch pGQ wNote).1 = .ok ((wNote.net 1).json) := by
  have h := C4_rate_limit_retry pGQ wNote "k" rfl rfl
  exact ⟨rfl, rfl, rfl, h.2.1, h.2.2.2.1, h.2.2.2.2 rfl rfl⟩

/-- C1 counterexample: a decoded body carrying `"Error Message"` together
with a non-success HTTP status does not produce the application error with
that message — the transport error (status and raw text) wins, and its
message does not carry the body's error message at all. -/
theorem C1_counterexample :
    (wErr404.net 0).json.errorMessage = some "boom" ∧
    (wErr404.net 0).status_code ≠ codes_ok ∧
    (_do_fetch pGQ wErr404).1
      = .error (.alphavantageApiError "Invalid response (404): irrelevant") ∧
    (_do_fetch pGQ wErr404).1
      ≠ .error (.alphavantageApiError "Invalid response: boom") ∧
    substrIn "boom".toList "Invalid response (404): irrelevant".toList = false := by
  refine ⟨rfl, by decide, rfl, ?_, by decide⟩
  intro hcontra
  have h1 : (_do_fetch pGQ wErr404).1
      = .error (.alphavantageApiError "Invalid response (404): irrelevant") := rfl
  rw [h1] at hcontra
  exact absurd (PyError.alphavantageApiError.inj (Except.error.inj hcontra)) (by decide)

/-- C1 (amended): a decoded body carrying an `"Error Message"` field yields
the application error with that message provided the HTTP status of the
response examined after the retry step is a success; a non-success status
takes precedence and yields the transport error instead. -/
theorem C1_app_error (p : Params) (w : World) (key m : String)
    (hkey : w.apiKeyEnv = some key)
    (hstatus : (effectiveResponse w).status_code = codes_ok)
    (herr : (effectiveResponse w).json.errorMessage = some m) :
    (_do_fetch p w).1 = .error (.alphavantageApiError ("Invalid response: " ++ m)) := by
  rw [do_fetch_spec p w key hkey]
  simp [hstatus, herr]

/-- Witness for C1's amended theorem at a concrete success-status world. -/
theorem C1_app_error_witness :
    (_do_fetch pGQ wErr200).1 = .error (.alphavantageApiError "Invalid response: bad symbol") :=
  C1_app_error pGQ wErr200 "k" "bad symbol" rfl rfl rfl

theorem afterFetchWorld_log (p : Params) (w : World) (key : String) :
    (afterFetchWorld p w key).log = w.log := by
  unfold afterFetchWorld
  split_ifs <;> rfl

/-- C3 counterexample: an exchange-rate payload naming a zone absent from
the tz database is normalized into a success result whose timestamp carries
no zone at all (`tzinfo` is `None`), with no error raised. -/
theorem C3_counterexample :
    gettz "Mars/Olympus" = none ∧
    (get_latest_price "fx:USD:CHF" wFxBad).1
      = .ok ⟨Decimal "108.94000000", ⟨100, 73945, none⟩, "CHF"⟩ := by
  exact ⟨rfl, rfl⟩

/-- C3 (amended): the `"7. Time Zone"` field is resolved through the tz
database and the resolution attached as the returned timestamp's zone; when
the name does not resolve, `None` is attached — the timestamp comes back
naive, silently, rather than the lookup failing with an error. -/
theorem C3_timezone (ticker sym base : String) (w : World) (key : String) (r : RateData)
    (hparse : _parse_ticker ticker = .ok ("fx", sym, base))
    (hkey : w.apiKeyEnv = some key)
    (hstatus : (effectiveResponse w).status_code = codes_ok)
    (herr : (effectiveResponse w).json.errorMessage = none)
    (hrate : (effectiveResponse w).json.realtimeRate = some r) :
    (get_latest_price ticker w).1 =
      .ok ⟨Decimal r.exchangeRate, { r.lastRefreshed with tz := gettz r.timeZone }, base⟩ := by
  have h1 : get_latest_price ticker w =
      (match _do_fetch (⟨"CURRENCY_EXCHANGE_RATE", none, none, some sym, some base, none⟩ :
          Params) w with
       | (.error e, w') => (.error e, w')
       | (.ok data, w') =>
         match data.realtimeRate with
         | none => (.error (.keyError "Realtime Currency Exchange Rate"), w')
         | some price_data =>
           (.ok ⟨Decimal price_data.exchangeRate,
             { price_data.lastRefreshed with tz := gettz price_data.timeZone }, base⟩, w')) := by
    unfold get_latest_price
    rw [hparse]
    rfl
  rw [do_fetch_ok _ w key hkey hstatus herr] at h1
  simp only [hrate] at h1
  rw [h1]

/-- Witness for C3's amended theorem: the literal `"UTC"` zone resolves and
is attached, as in the repository's `test_valid_response_fx`. -/
theorem C3_timezone_witness :
    (get_latest_price "fx:USD:CHF" wFxUTC).1
      = .ok ⟨Decimal "108.94000000", ⟨100, 73945, some 0⟩, "CHF"⟩ := by
  have h := C3_timezone "fx:USD:CHF" "USD" "CHF" wFxUTC "k"
    ⟨"108.94000000", ⟨100, 73945, none⟩, "UTC"⟩ (by rfl) rfl rfl rfl rfl
  exact h

/-- C7: a historical lookup on an `fx` ticker returns an absent result
immediately after recognizing the kind — only a log line is emitted, the
world's request count and request log are untouched, so no HTTP request is
issued on that path. -/
theorem C7_fx_historical (ticker sym base : String) (time now : DateTime) (fuel : ℕ)
    (w : World)
    (hparse : _parse_ticker ticker = .ok ("fx", sym, base)) :
    get_historical_price ticker time now fuel w =
      (.ok none, { w with log := w.log ++ [.info "Currency exchange not implemented yet."] }) ∧
    (get_historical_price ticker time now fuel w).2.requestCount = w.requestCount ∧
    (get_historical_price ticker time now fuel w).2.requestLog = w.requestLog := by
  have h1 : get_historical_price ticker time now fuel w =
      (.ok none, { w with log := w.log ++ [.info "Currency exchange not implemented yet."] }) := by
    unfold get_historical_price
    rw [hparse]
    rfl
  exact ⟨h1, by rw [h1], by rw [h1]⟩

/-- Witness for C7 at the concrete ticker of the repository's fx test. -/
theorem C7_fx_historical_witness :
    get_historical_price "fx:USD:CHF" ⟨6, 3600, some 0⟩ ⟨100, 0, some 0⟩ 10 wSeries
      = (.ok none, { wSeries with log := [.info "Currency exchange not implemented yet."] }) ∧
    (get_historical_price "fx:USD:CHF" ⟨6, 3600, some 0⟩ ⟨100, 0, some 0⟩ 10 wSeries).2.requestCount
      = 0 := by
  have h := C7_fx_historical "fx:USD:CHF" "USD" "CHF" ⟨6, 3600, some 0⟩ ⟨100, 0, some 0⟩ 10
    wSeries (by rfl)
  exact ⟨h.1, h.2.1⟩

/-- C8: during historical normalization over a successfully fetched body, a
premium-endpoint `"Information"` body and a body lacking the
`"Time Series (Daily)"` key both return an absent result (`None`) rather
than raising; the two conditions are told apart by their distinct log
records (an info line versus an error line carrying the payload), and the
absent result is distinct from any normal priced result. -/
theorem C8_no_data_shapes (ticker sym base : String) (time now : DateTime) (fuel : ℕ)
    (w : World) (key : String)
    (hparse : _parse_ticker ticker = .ok ("price", sym, base))
    (hkey : w.apiKeyEnv = some key)
    (hstatus : (effectiveResponse w).status_code = codes_ok)
    (herr : (effectiveResponse w).json.errorMessage = none) :
    (premium_gate (effectiveResponse w).json = true →
      (get_historical_price ticker time now fuel w).1 = .ok none ∧
      (get_historical_price ticker time now fuel w).2.log
        = w.log ++ [.info "Premium endpoint API key required."]) ∧
    (premium_gate (effectiveResponse w).json = false →
      (effectiveResponse w).json.timeSeriesDaily = none →
      (get_historical_price ticker time now fuel w).1 = .ok none ∧
      (get_historical_price ticker time now fuel w).2.log
        = w.log ++ [.error "Price data not found when expected: %s" (effectiveResponse w).json]) ∧
    (∀ d : JsonBody, LogMsg.info "Premium endpoint API key required."
        ≠ LogMsg.error "Price data not found when expected: %s" d) ∧
    (∀ sp : SourcePrice, HistResult.ok (some sp) ≠ HistResult.ok none) := by
  have h1 : get_historical_price ticker time now fuel w =
      (match _do_fetch (⟨"TIME_SERIES_DAILY", some sym,
          some (if DateTime.lt time (now.subDays 130) then "full" else "compact"),
          none, none, none⟩ : Params) w with
       | (.error e, w') => (.err e, w')
       | (.ok data, w') =>
         if premium_gate data then
           (.ok none, { w' with log := w'.log ++ [.info "Premium endpoint API key required."] })
         else
           match data.timeSeriesDaily with
           | some price_data =>
             match searchBack (seriesHasDay price_data) time.day fuel with
             | none => (.diverge, w')
             | some d =>
               (.ok (some ⟨Decimal ((price_data.lookup d).getD ⟨""⟩).close,
                 { time with day := d }, base⟩), w')
           | none =>
             (.ok none, { w' with log := w'.log ++
               [.error "Price data not found when expected: %s" data] })) := by
    unfold get_historical_price
    rw [hparse]
    rfl
  rw [do_fetch_ok _ w key hkey hstatus herr] at h1
  refine ⟨?_, ?_, ?_, ?_⟩
  · intro hprem
    simp only [hprem, if_true] at h1
    rw [h1]
    refine ⟨rfl, ?_⟩
    simp [afterFetchWorld_log]
  · intro hprem htsd
    simp only [hprem, htsd, Bool.false_eq_true, if_false] at h1
    rw [h1]
    refine ⟨rfl, ?_⟩
    simp [afterFetchWorld_log]
  · intro d hcontra
    exact LogMsg.noConfusion hcontra
  · intro sp hcontra
    exact Option.noConfusion (HistResult.ok.inj hcontra)

/-- Witness for C8 at concrete premium-gated and shape-missing worlds. -/
theorem C8_no_data_shapes_witness :
    premium_gate (effectiveResponse wPremium).json = true ∧
    (get_historical_price "price:IBM:USD" ⟨6, 3600, some 0⟩ ⟨100, 0, some 0⟩ 10 wPremium).1
      = .ok none ∧
    (effectiveResponse wNoSeries).json.timeSeriesDaily = none ∧
    (get_historical_price "price:IBM:USD" ⟨6, 3600, some 0⟩ ⟨100, 0, some 0⟩ 10 wNoSeries).1
      = .ok none := by
  refine ⟨by decide, ?_, rfl, ?_⟩
  · exact ((C8_no_data_shapes "price:IBM:USD" "IBM" "USD" ⟨6, 3600, some 0⟩ ⟨100, 0, some 0⟩
      10 wPremium "k" (by rfl) rfl rfl rfl).1 (by decide)).1
  · exact (((C8_no_data_shapes "price:IBM:USD" "IBM" "USD" ⟨6, 3600, some 0⟩ ⟨100, 0, some 0⟩
      10 wNoSeries "k" (by rfl) rfl rfl rfl).2.1 (by decide) rfl)).1

theorem get_historical_price_price_world (ticker sym base : String) (time now : DateTime)
    (fuel : ℕ) (w : World) (key : String)
    (hparse : _parse_ticker ticker = .ok ("price", sym, base))
    (hkey : w.apiKeyEnv = some key) :
    (get_historical_price ticker time now fuel w).2.requestLog
      = (afterFetchWorld (⟨"TIME_SERIES_DAILY", some sym,
          some (if DateTime.lt time (now.subDays 130) then "full" else "compact"),
          none, none, none⟩ : Params) w key).requestLog := by
  have h1 : get_historical_price ticker time now fuel w =
      (match _do_fetch (⟨"TIME_SERIES_DAILY", some sym,
          some (if DateTime.lt time (now.subDays 130) then "full" else "compact"),
          none, none, none⟩ : Params) w with
       | (.error e, w') => (.err e, w')
       | (.ok data, w') =>
         if premium_gate data then
           (.ok none, { w' with log := w'.log ++ [.info "Premium endpoint API key required."] })
         else
           match data.timeSeriesDaily with
           | some price_data =>
             match searchBack (seriesHasDay price_data) time.day fuel with
             | none => (.diverge, w')
             | some d =>
               (.ok (some ⟨Decimal ((price_data.lookup d).getD ⟨""⟩).close,
                 { time with day := d }, base⟩), w')
           | none =>
             (.ok none, { w' with log := w'.log ++
               [.error "Price data not found when expected: %s" data] })) := by
    unfold get_historical_price
    rw [hparse]
    rfl
  rcases hf : _do_fetch (⟨"TIME_SERIES_DAILY", some sym,
      some (if DateTime.lt time (now.subDays 130) then "full" else "compact"),
      none, none, none⟩ : Params) w with ⟨r, w2⟩
  have hw2 : w2 = afterFetchWorld (⟨"TIME_SERIES_DAILY", some sym,
      some (if DateTime.lt time (now.subDays 130) then "full" else "compact"),
      none, none, none⟩ : Params) w key := by
    have hspec := do_fetch_spec (⟨"TIME_SERIES_DAILY", some sym,
      some (if DateTime.lt time (now.subDays 130) then "full" else "compact"),
      none, none, none⟩ : Params) w key hkey
    rw [hf] at hspec
    exact congrArg Prod.snd hspec
  rw [h1, hf, ← hw2]
  rcases r with e | data
  · rfl
  · by_cases hprem : premium_gate data = true
    · simp only [hprem, if_true]
    · simp only [hprem, Bool.false_eq_true, if_false]
      cases htsd : data.timeSeriesDaily with
      | none => simp only [htsd]
      | some pd =>
        simp only [htsd]
        cases hsb : searchBack (seriesHasDay pd) time.day fuel with
        | none => simp only [hsb]
        | some d => simp only [hsb]

theorem dtLt_subDays (time now : DateTime) :
    DateTime.lt time (now.subDays 130) = true ↔
      time.utcSeconds < now.utcSeconds - 130 * 86400 := by
  unfold DateTime.lt DateTime.subDays DateTime.utcSeconds
  simp only [decide_eq_true_eq]
  constructor <;> intro h <;> omega

/-- C9: on the historical path the issued request's `outputSize` parameter
is `full` exactly when the requested instant lies more than 130 days before
the current time (strictly earlier than now minus 130 days, compared as UTC
instants), and `compact` otherwise. -/
theorem C9_output_size (ticker sym base : String) (time now : DateTime) (fuel : ℕ)
    (w : World) (key : String)
    (hparse : _parse_ticker ticker = .ok ("price", sym, base))
    (hkey : w.apiKeyEnv = some key)
    (hnote : (w.net w.requestCount).json.note = false) :
    ∃ os : String,
      (get_historical_price ticker time now fuel w).2.requestLog
        = w.requestLog ++ [(⟨"TIME_SERIES_DAILY", some sym, some os, none, none, none⟩ :
            Params).setApikey key] ∧
      (os = "full" ↔ time.utcSeconds < now.utcSeconds - 130 * 86400) ∧
      (os = "compact" ↔ ¬ time.utcSeconds < now.utcSeconds - 130 * 86400) := by
  have harith := dtLt_subDays time now
  refine ⟨if DateTime.lt time (now.subDays 130) then "full" else "compact", ?_, ?_, ?_⟩
  · rw [get_historical_price_price_world ticker sym base time now fuel w key hparse hkey]
    unfold afterFetchWorld
    rw [if_neg (by simp [hnote])]
  · by_cases hlt : DateTime.lt time (now.subDays 130) = true
    · rw [if_pos hlt]
      exact iff_of_true rfl (harith.mp hlt)
    · rw [if_neg hlt]
      exact iff_of_false (by decide) (fun hcc => hlt (harith.mpr hcc))
  · by_cases hlt : DateTime.lt time (now.subDays 130) = true
    · rw [if_pos hlt]
      exact iff_of_false (by decide) (fun hcc => hcc (harith.mp hlt))
    · rw [if_neg hlt]
      exact iff_of_true rfl (fun hcc => hlt (harith.mpr hcc))

/-- Witness for C9: a request 294 days in the past gets `outputSize=full`. -/
theorem C9_output_size_witness :
    (get_historical_price "price:IBM:USD" ⟨6, 3600, some 0⟩ ⟨300, 0, some 0⟩ 10 wSeries).2.requestLog
      = [⟨"TIME_SERIES_DAILY", some "IBM", some "full", none, none, some "foo"⟩] := by
  obtain ⟨os, h1, h2, h3⟩ := C9_output_size "price:IBM:USD" "IBM" "USD" ⟨6, 3600, some 0⟩
    ⟨300, 0, some 0⟩ 10 wSeries "foo" (by rfl) rfl rfl
  obtain rfl := h2.mpr (by decide)
  rw [h1]
  rfl

/-- C2 counterexample: requesting day 6 (2025-04-06, a weekend) against the
test fixture's series returns the close of day 4 (the nearest earlier
present date) but paired with day 4's date as the timestamp — not the
originally requested instant, whose date was 6. -/
theorem C2_counterexample :
    seriesHasDay tsda 6 = false ∧ seriesHasDay tsda 4 = true ∧
    (get_historical_price "price:IBM:USD" ⟨6, 3600, some 0⟩ ⟨100, 0, some 0⟩ 10 wSeries).1
      = .ok (some ⟨Decimal "227.48", ⟨4, 3600, some 0⟩, "USD"⟩) ∧
    (⟨4, 3600, some 0⟩ : DateTime) ≠ ⟨6, 3600, some 0⟩ := by
  refine ⟨rfl, rfl, rfl, by decide⟩

/-- C2 (amended): when the requested day is absent, the result carries the
close price of the nearest earlier present date, paired with the requested
instant stepped back to that date (the matched day's date with the original
time of day and zone) as the timestamp, and the ticker's base as the quote
currency. -/
theorem C2_fallback (ticker sym base : String) (time now : DateTime) (fuel : ℕ)
    (w : World) (key : String) (pd : List (ℤ × DayData)) (d : ℤ) (dd : DayData)
    (hparse : _parse_ticker ticker = .ok ("price", sym, base))
    (hkey : w.apiKeyEnv = some key)
    (hstatus : (effectiveResponse w).status_code = codes_ok)
    (herr : (effectiveResponse w).json.errorMessage = none)
    (hprem : premium_gate (effectiveResponse w).json = false)
    (htsd : (effectiveResponse w).json.timeSeriesDaily = some pd)
    (hsb : searchBack (seriesHasDay pd) time.day fuel = some d)
    (hdd : pd.lookup d = some dd) :
    (get_historical_price ticker time now fuel w).1
      = .ok (some ⟨Decimal dd.close, { time with day := d }, base⟩) ∧
    seriesHasDay pd d = true ∧ d ≤ time.day ∧
    (∀ k, d < k → k ≤ time.day → seriesHasDay pd k = false) := by
  have h1 : get_historical_price ticker time now fuel w =
      (match _do_fetch (⟨"TIME_SERIES_DAILY", some sym,
          some (if DateTime.lt time (now.subDays 130) then "full" else "compact"),
          none, none, none⟩ : Params) w with
       | (.error e, w') => (.err e, w')
       | (.ok data, w') =>
         if premium_gate data then
           (.ok none, { w' with log := w'.log ++ [.info "Premium endpoint API key required."] })
         else
           match data.timeSeriesDaily with
           | some price_data =>
             match searchBack (seriesHasDay price_data) time.day fuel with
             | none => (.diverge, w')
             | some d2 =>
               (.ok (some ⟨Decimal ((price_data.lookup d2).getD ⟨""⟩).close,
                 { time with day := d2 }, base⟩), w')
           | none =>
             (.ok none, { w' with log := w'.log ++
               [.error "Price data not found when expected: %s" data] })) := by
    unfold get_historical_price
    rw [hparse]
    rfl
  rw [do_fetch_ok _ w key hkey hstatus herr] at h1
  simp only [hprem, Bool.false_eq_true, if_false, htsd, hsb, hdd, Option.getD_some] at h1
  obtain ⟨hm, hle, hmax⟩ := searchBack_eq_some (seriesHasDay pd) time.day d fuel hsb
  exact ⟨by rw [h1], hm, hle, hmax⟩

/-- Witness for C2's amended theorem at the repository's test fixture with
a weekend request (day 6 falls back to day 4). -/
theorem C2_fallback_witness :
    (get_historical_price "price:IBM:USD" ⟨6, 3600, some 0⟩ ⟨100, 0, some 0⟩ 10 wSeries).1
      = .ok (some ⟨Decimal "227.48", ⟨4, 3600, some 0⟩, "USD"⟩) ∧
    ∀ k, (4 : ℤ) < k → k ≤ 6 → seriesHasDay tsda k = false := by
  have h := C2_fallback "price:IBM:USD" "IBM" "USD" ⟨6, 3600, some 0⟩ ⟨100, 0, some 0⟩ 10
    wSeries "foo" tsda 4 ⟨"227.48"⟩ (by rfl) rfl rfl rfl (by decide) rfl (by decide) (by decide)
  exact ⟨h.1, h.2.2.2⟩

/-- C6: the backward fallback search terminates on exactly those inputs
whose series contains a date key on or before the requested day — for every
such input some fuel suffices, and with no such key (an empty series
included) no amount of fuel finds a day: the corresponding run of
`get_historical_price` diverges for every fuel bound, there being no
lookback bound in the source. -/
theorem C6_search_termination :
    (∀ (mem : ℤ → Bool) (d : ℤ),
      (∃ fuel, (searchBack mem d fuel).isSome) ↔ (∃ k, k ≤ d ∧ mem k = true)) ∧
    (∀ (ticker sym base : String) (time now : DateTime) (w : World) (key : String)
        (pd : List (ℤ × DayData)),
      _parse_ticker ticker = .ok ("price", sym, base) →
      w.apiKeyEnv = some key →
      (effectiveResponse w).status_code = codes_ok →
      (effectiveResponse w).json.errorMessage = none →
      premium_gate (effectiveResponse w).json = false →
      (effectiveResponse w).json.timeSeriesDaily = some pd →
      (∀ k, k ≤ time.day → seriesHasDay pd k = false) →
      ∀ fuel, (get_historical_price ticker time now fuel w).1 = .diverge) := by
  constructor
  · intro mem d
    constructor
    · rintro ⟨fuel, hfuel⟩
      obtain ⟨j, hj⟩ := Option.isSome_iff_exists.mp hfuel
      obtain ⟨h1, h2, h3⟩ := searchBack_eq_some mem d j fuel hj
      exact ⟨j, h2, h1⟩
    · rintro ⟨k, hk, hm⟩
      exact ⟨(d - k).toNat + 1, searchBack_isSome mem k hm (d - k).toNat d hk le_rfl⟩
  · intro ticker sym base time now w key pd hparse hkey hstatus herr hprem htsd hnone fuel
    have h1 : get_historical_price ticker time now fuel w =
        (match _do_fetch (⟨"TIME_SERIES_DAILY", some sym,
            some (if DateTime.lt time (now.subDays 130) then "full" else "compact"),
            none, none, none⟩ : Params) w with
         | (.error e, w') => (.err e, w')
         | (.ok data, w') =>
           if premium_gate data then
             (.ok none, { w' with log := w'.log ++ [.info "Premium endpoint API key required."] })
           else
             match data.timeSeriesDaily with
             | some price_data =>
               match searchBack (seriesHasDay price_data) time.day fuel with
               | none => (.diverge, w')
               | some d2 =>
                 (.ok (some ⟨Decimal ((price_data.lookup d2).getD ⟨""⟩).close,
                   { time with day := d2 }, base⟩), w')
             | none =>
               (.ok none, { w' with log := w'.log ++
                 [.error "Price data not found when expected: %s" data] })) := by
      unfold get_historical_price
      rw [hparse]
      rfl
    rw [do_fetch_ok _ w key hkey hstatus herr] at h1
    have hsb : searchBack (seriesHasDay pd) time.day fuel = none :=
      searchBack_eq_none (seriesHasDay pd) fuel time.day hnone
    simp only [hprem, Bool.false_eq_true, if_false, htsd, hsb] at h1
    rw [h1]

/-- Witness for C6: the fixture series terminates from day 6, while the
empty series diverges for a concrete fuel bound. -/
theorem C6_search_termination_witness :
    (∃ fuel, (searchBack (seriesHasDay tsda) 6 fuel).isSome) ∧
    (get_historical_price "price:IBM:USD" ⟨2, 0, some 0⟩ ⟨100, 0, some 0⟩ 5 wEmptySeries).1
      = .diverge := by
  constructor
  · exact (C6_search_termination.1 (seriesHasDay tsda) 6).mpr ⟨4, by decide, by decide⟩
  · exact C6_search_termination.2 "price:IBM:USD" "IBM" "USD" ⟨2, 0, some 0⟩ ⟨100, 0, some 0⟩
      wEmptySeries "k" [] (by rfl) rfl rfl rfl rfl rfl (fun k hk => rfl) 5
